import Mathlib

/-!
Verification of the goserve request-routing and authorization core.

The definitions below are a shallow embedding of `main.go` (Unix build:
`filepath.Separator = '/'`, `filepath.FromSlash` is the identity).  Pure Go
functions become Lean functions; filesystem calls become explicit oracles
(`Option String` error results) and recorded action lists; the Go `net/http`
convention that writing a body without an explicit `WriteHeader` sends
status 200 is encoded at each response-building site.
-/

namespace GoServe

/-! ## Path primitives: `path/filepath` on Unix -/

/-- One step of the backtracking loop in Go `filepath.Clean`'s `..` case
(`out.w--; for out.w > dotdot && out.index(out.w) != '/' { out.w-- }`),
operating on the output buffer kept in reversed order. -/
def backtrackRev (dotdot : Nat) : List Char → List Char
  | [] => []
  | c :: rest => if rest.length > dotdot && c != '/' then backtrackRev dotdot rest else rest

/-- `out.append(Separator)` guard of Go `filepath.Clean`'s default case:
`if (rooted && out.w != 1) || (!rooted && out.w != 0) { out.append('/') }`.
The buffer is kept in reversed order. -/
def sepIfNeeded (rooted : Bool) (outRev : List Char) : List Char :=
  if (rooted && outRev.length != 1) || (!rooted && outRev.length != 0) then '/' :: outRev else outRev

/-- The main loop of Go `filepath.Clean` (generic algorithm, separator `/`).
State: output buffer in reversed order, current `dotdot` barrier, and a flag
telling whether we are inside the inner segment-copying loop of the default
case (Go expresses that inner loop with a nested `for`; here it is the
`true` mode, consuming one character per step). -/
def cleanLoop (rooted : Bool) : List Char → Nat → Bool → List Char → List Char
  | outRev, _, _, [] => outRev
  | outRev, dotdot, true, c :: rest =>
    if c = '/' then cleanLoop rooted outRev dotdot false rest
    else cleanLoop rooted (c :: outRev) dotdot true rest
  | outRev, dotdot, false, '/' :: rest => cleanLoop rooted outRev dotdot false rest
  | outRev, _, false, ['.'] => outRev
  | outRev, dotdot, false, '.' :: '/' :: rest => cleanLoop rooted outRev dotdot false rest
  | outRev, dotdot, false, '.' :: '.' :: rest2 =>
    if rest2 = [] || rest2.head? = some '/' then
      if outRev.length > dotdot then
        cleanLoop rooted (backtrackRev dotdot outRev) dotdot false rest2
      else if !rooted then
        let out2 := '.' :: '.' :: (if outRev.length > 0 then '/' :: outRev else outRev)
        cleanLoop rooted out2 out2.length false rest2
      else
        cleanLoop rooted outRev dotdot false rest2
    else
      cleanLoop rooted ('.' :: '.' :: sepIfNeeded rooted outRev) dotdot true rest2
  | outRev, dotdot, false, '.' :: rest => cleanLoop rooted ('.' :: sepIfNeeded rooted outRev) dotdot true rest
  | outRev, dotdot, false, c :: rest => cleanLoop rooted (c :: sepIfNeeded rooted outRev) dotdot true rest
termination_by structural _ _ _ l => l

/-- Go `filepath.Clean` on Unix (volume length is 0). An empty path cleans to
`"."`; a rooted path starts the buffer with `/` and `dotdot = 1`; an empty
output buffer yields `"."`. -/
def goClean (p : String) : String :=
  if p = "" then "." else
  let chars := p.data
  let rooted : Bool := chars.head? = some '/'
  let out := cleanLoop rooted (if rooted then ['/'] else []) (if rooted then 1 else 0) false chars
  if out = [] then "." else String.mk out.reverse

/-- Go `filepath.Join(a, b)` on Unix: the first non-empty element onward is
joined with `/` and cleaned; all-empty input yields `""`. -/
def filepathJoin (a b : String) : String :=
  if a ≠ "" then goClean (a ++ "/" ++ b)
  else if b ≠ "" then goClean b
  else ""

/-- Go `filepath.Dir` on Unix: strip the trailing non-separator suffix
(keeping the last `/` if any) and clean the remainder. -/
def goDir (p : String) : String :=
  goClean (String.mk (((p.data.reverse).dropWhile (· ≠ '/')).reverse))

/-- Go `filepath.FromSlash` on Unix: the identity. -/
def fromSlash (s : String) : String := s

/-- Go `strings.TrimRight(s, string(filepath.Separator))` on Unix: remove all
trailing `/` characters. -/
def trimRightSep (s : String) : String :=
  String.mk ((s.data.reverse.dropWhile (· = '/')).reverse)

/-- Go `strings.HasPrefix(s, pre)`. -/
def strStarts (s pre : String) : Bool := pre.data.isPrefixOf s.data

/-- Scanner behind `strings.Contains`: does `sub` occur as a contiguous
subsequence of the character list? -/
def containsSeq (sub : List Char) : List Char → Bool
  | [] => sub.isPrefixOf []
  | c :: rest => sub.isPrefixOf (c :: rest) || containsSeq sub rest

/-- Go `strings.Contains(s, sub)`. -/
def strContains (s sub : String) : Bool := containsSeq sub.data s.data

/-- `isUnderDir` from `main.go`: checks whether `fullPath` is equal to or
under `baseDir` by appending the separator to both sides of a prefix
comparison. -/
def isUnderDir (fullPath baseDir : String) : Bool :=
  strStarts (fullPath ++ "/") (trimRightSep baseDir ++ "/")

/-- The path-resolution step at the top of `dirHandler`:
`urlPath := filepath.Clean(r.URL.Path); fullPath := filepath.Join(baseDir, urlPath)`,
followed by the `isUnderDir` containment check that otherwise answers
Forbidden before any filesystem access. -/
def resolvePath (baseDir rawPath : String) : Except Unit String :=
  let urlPath := goClean rawPath
  let fullPath := filepathJoin baseDir urlPath
  if isUnderDir fullPath baseDir then .ok fullPath else .error ()

/-! ## Strings helpers used by `loadUsers` -/

/-- ASCII whitespace as trimmed by Go `strings.TrimSpace` on the ASCII
fast path (the credentials files at issue are ASCII). -/
def isSpaceChar (c : Char) : Bool :=
  c = ' ' || c = '\t' || c = '\n' || c = '\x0d' || c = '\x0b' || c = '\x0c'

/-- Go `strings.TrimSpace` (ASCII). -/
def trimSpace (s : String) : String :=
  String.mk (((s.data.dropWhile isSpaceChar).reverse.dropWhile isSpaceChar).reverse)

/-- Splitter behind Go `strings.Split(s, sep)` for a one-character separator:
always returns one more piece than there are separators. -/
def splitChar (c : Char) : List Char → List (List Char)
  | [] => [[]]
  | x :: xs =>
    match splitChar c xs with
    | [] => [[]]
    | h :: t => if x = c then [] :: h :: t else (x :: h) :: t

/-- Go `strings.Split(s, string(c))`. -/
def goSplit (s : String) (c : Char) : List String :=
  (splitChar c s.data).map String.mk

/-! ## UserStore: `loadUsers`, `getUserFromRequest`, `authMiddleware` -/

/-- An identity row of the credentials file (`User` in `main.go`). -/
structure User where
  username : String
  password : String
  permission : String
  deriving DecidableEq, Repr

/-- Processing of one credentials-file line inside the `loadUsers` loop:
`none` means the line adds no entry (blank, comment, or wrong field count);
`some u` means `users[u.username] = u` is executed. -/
def parseLine (line : String) : Option User :=
  let l := trimSpace line
  if l = "" then none
  else if strStarts l "#" then none
  else
    match goSplit l ':' with
    | [a, b, c] => some ⟨trimSpace a, trimSpace b, trimSpace c⟩
    | _ => none

/-- `loadUsers` from `main.go`: split the file on newlines and fold the
per-line effect into the `users` map (later lines overwrite earlier ones,
as Go map assignment does). The map is modelled as a lookup function. -/
def loadUsers (content : String) : String → Option User :=
  (goSplit content '\n').foldl
    (fun m line =>
      match parseLine line with
      | none => m
      | some u => fun q => if q = u.username then some u else m q)
    (fun _ => none)

/-- An inbound HTTP request as the routing core consumes it: method, URL
path, the query markers read via `r.URL.Query().Get(...)` (empty string
means absent), and the already-decoded Basic credentials from
`r.BasicAuth()`. -/
structure Request where
  method : String
  path : String
  qUpload : String
  qDelete : String
  qRename : String
  qNewname : String
  qMkdir : String
  qEdit : String
  qZip : String
  qZipfiles : String
  qMarkdown : String
  basicAuth : Option (String × String)
  deriving DecidableEq, Repr

/-- `getUserFromRequest` from `main.go`: nil unless auth is required, Basic
credentials were sent, the username exists, and the password matches. -/
def getUserFromRequest (requireAuth : Bool) (users : String → Option User)
    (r : Request) : Option User :=
  if !requireAuth then none
  else
    match r.basicAuth with
    | none => none
    | some (username, password) =>
      match users username with
      | none => none
      | some user => if user.password != password then none else some user

/-- Response bodies, abstracted to the shapes the handlers produce. The JSON
bodies `jsonOk`/`jsonFail msg` stand for `{"success": true}` and
`{"success": false, "error": "<msg>"}` respectively. -/
inductive Body where
  | text (msg : String)
  | jsonOk
  | jsonFail (msg : String)
  | redirect (location : String)
  | page
  | fileBytes (path : String)
  | mdHtml (path : String)
  | zipStream
  deriving DecidableEq, Repr

/-- An HTTP response: status code, whether a `WWW-Authenticate` challenge
header was set, and the body shape. Handlers that write a body without
calling `WriteHeader` get Go's implicit status 200. -/
structure Response where
  status : Nat
  wwwAuth : Bool
  body : Body
  deriving DecidableEq, Repr

/-- `authMiddleware` from `main.go`, as the gate in front of a handler:
`none` lets the request through, `some resp` stops the pipeline with a 401
challenge. With `requireAuth` false it is a pass-through. -/
def authGate (requireAuth : Bool) (users : String → Option User)
    (r : Request) : Option Response :=
  if !requireAuth then none
  else
    match getUserFromRequest requireAuth users r with
    | none => some ⟨401, true, .text "Unauthorized"⟩
    | some _ => none

/-- The capability computation of `dirHandler` (lines starting at
`canUpload := allowUpload`): the static policy, narrowed by the verified
identity's permission level when auth is required and a user was found.
An unrecognized permission string hits no `case` and leaves the static
flags unchanged. Result: `(canUpload, canModify)`. -/
def capabilities (allowUpload allowModify requireAuth : Bool)
    (user : Option User) : Bool × Bool :=
  if requireAuth then
    match user with
    | some u =>
      if u.permission = "readonly" then (false, false)
      else if u.permission = "readwrite" then (allowUpload, false)
      else if u.permission = "all" then (allowUpload, allowModify)
      else (allowUpload, allowModify)
    | none => (allowUpload, allowModify)
  else (allowUpload, allowModify)

/-! ## `dirHandler`: classification and gating -/

/-- The operation `dirHandler` hands off to after resolution, capability
checking, and classification by query markers and method. -/
inductive Operation where
  | upload (fullPath : String)
  | del (baseDir param : String)
  | ren (baseDir oldParam newName : String)
  | mkdir (fullPath param : String)
  | edit (fullPath baseDir : String)
  | zipDir (fullPath urlPath : String)
  | zipMulti (fullPath baseDir : String)
  | markdown (fullPath : String)
  | serveFile (fullPath : String)
  | listDir (fullPath : String)
  deriving DecidableEq, Repr

/-- Either a response decided by the gate/dispatcher itself, or a hand-off
to an operation handler. -/
inductive Step where
  | done (resp : Response)
  | op (o : Operation)
  deriving DecidableEq, Repr

/-- `dirHandler` from `main.go` up to the point where an operation handler
takes over: resolve the path, fail closed with 403, compute capabilities,
then run the marker chain. `stat` is the `os.Stat(fullPath)` oracle
(`none` = error, `some isDir` = success); it is only consulted after the
marker chain, exactly as in the source. -/
def dirHandlerStep (requireAuth allowUpload allowModify : Bool)
    (users : String → Option User) (baseDir : String) (r : Request)
    (stat : Option Bool) : Step :=
  match resolvePath baseDir r.path with
  | .error _ => .done ⟨403, false, .text "Forbidden"⟩
  | .ok fullPath =>
    let user := getUserFromRequest requireAuth users r
    let caps := capabilities allowUpload allowModify requireAuth user
    if r.qUpload != "" && r.method = "POST" then
      if !caps.1 then .done ⟨403, false, .text "Forbidden: Upload not allowed"⟩
      else .op (.upload fullPath)
    else if r.qDelete != "" && r.method = "POST" then
      if !caps.2 then .done ⟨200, false, .jsonFail "Forbidden: Delete not allowed"⟩
      else .op (.del baseDir r.qDelete)
    else if r.qRename != "" && r.method = "POST" then
      if !caps.2 then .done ⟨200, false, .jsonFail "Forbidden: Rename not allowed"⟩
      else .op (.ren baseDir r.qRename r.qNewname)
    else if r.qMkdir != "" && r.method = "POST" then
      if !caps.2 then .done ⟨200, false, .jsonFail "Forbidden: Modify not allowed"⟩
      else .op (.mkdir fullPath r.qMkdir)
    else if r.qEdit != "" && r.method = "POST" then
      if !caps.2 then .done ⟨200, false, .jsonFail "Forbidden: Edit not allowed"⟩
      else .op (.edit fullPath baseDir)
    else if r.qZip != "" then .op (.zipDir fullPath (goClean r.path))
    else if r.qZipfiles != "" && r.method = "POST" then .op (.zipMulti fullPath baseDir)
    else
      match stat with
      | none => .done ⟨404, false, .text "404 page not found"⟩
      | some isDir =>
        if !isDir && r.qMarkdown != "" then .op (.markdown fullPath)
        else if !isDir then .op (.serveFile fullPath)
        else .op (.listDir fullPath)

/-- The full request pipeline for the main handler: `authMiddleware`
wrapping `dirHandler` (the wrapping happens in `main` when `requireAuth`
is set; with it unset `authGate` is a pass-through, so one definition
covers both wirings). -/
def pipeline (requireAuth allowUpload allowModify : Bool)
    (users : String → Option User) (baseDir : String) (r : Request)
    (stat : Option Bool) : Step :=
  match authGate requireAuth users r with
  | some resp => .done resp
  | none => dirHandlerStep requireAuth allowUpload allowModify users baseDir r stat

/-! ## JSON mutation handlers -/

/-- `handleDelete` from `main.go`. `removeErr` is the `os.RemoveAll`
oracle. Every branch writes the body without `WriteHeader`, hence
status 200 throughout. -/
def handleDelete (baseDir deleteParam : String) (removeErr : Option String) : Response :=
  let fullPath := filepathJoin baseDir deleteParam
  if !isUnderDir fullPath baseDir then ⟨200, false, .jsonFail "Invalid path"⟩
  else
    match removeErr with
    | some e => ⟨200, false, .jsonFail e⟩
    | none => ⟨200, false, .jsonOk⟩

/-- The decision core of `handleRename`: either refuse with the JSON
invalid-path error (no filesystem call is made), or call
`os.Rename oldP newP`. -/
inductive RenameOutcome where
  | invalidPath
  | doRename (oldP newP : String)
  deriving DecidableEq, Repr

/-- `handleRename` from `main.go` up to the `os.Rename` call: the
destination joins the client-supplied new name onto the parent directory
of the source, and both paths must pass `isUnderDir`. -/
def handleRenameStep (baseDir oldParam newName : String) : RenameOutcome :=
  let oldFullPath := filepathJoin baseDir oldParam
  let newFullPath := filepathJoin (goDir oldFullPath) newName
  if !isUnderDir oldFullPath baseDir || !isUnderDir newFullPath baseDir then .invalidPath
  else .doRename oldFullPath newFullPath

/-- `handleRename`'s response. `renameErr` is the `os.Rename` oracle. -/
def handleRename (baseDir oldParam newName : String) (renameErr : Option String) : Response :=
  match handleRenameStep baseDir oldParam newName with
  | .invalidPath => ⟨200, false, .jsonFail "Invalid path"⟩
  | .doRename _ _ =>
    match renameErr with
    | some e => ⟨200, false, .jsonFail e⟩
    | none => ⟨200, false, .jsonOk⟩

/-- `handleMkdir` from `main.go`. `statExists` is the `os.Stat(newPath)`
success oracle and `mkdirErr` the `os.Mkdir` oracle. -/
def handleMkdir (parentDir dirName : String) (statExists : Bool)
    (mkdirErr : Option String) : Response :=
  if dirName = "" || strContains dirName "/" || strContains dirName "\\" ||
      strContains dirName ".." then
    ⟨200, false, .jsonFail "Invalid directory name"⟩
  else
    let newPath := filepathJoin parentDir dirName
    if !(strStarts (newPath ++ "/") (parentDir ++ "/")) then
      ⟨200, false, .jsonFail "Invalid path"⟩
    else if statExists then ⟨200, false, .jsonFail "Directory already exists"⟩
    else
      match mkdirErr with
      | some e => ⟨200, false, .jsonFail e⟩
      | none => ⟨200, false, .jsonOk⟩

/-- `handleEdit` from `main.go`. `readBodyOk` is the `io.ReadAll(r.Body)`
oracle and `writeErr` the `os.WriteFile` oracle. -/
def handleEdit (fullPath baseDir : String) (readBodyOk : Bool)
    (writeErr : Option String) : Response :=
  if !isUnderDir fullPath baseDir then ⟨200, false, .jsonFail "Invalid path"⟩
  else if !readBodyOk then ⟨200, false, .jsonFail "Failed to read content"⟩
  else
    match writeErr with
    | some e => ⟨200, false, .jsonFail e⟩
    | none => ⟨200, false, .jsonOk⟩

/-! ## `handleUpload` -/

/-- A mutating filesystem call attempted by the upload loop. -/
inductive FsAction where
  | mkdirAll (dir : String)
  | create (path : String)
  | write (path : String)
  deriving DecidableEq, Repr

/-- One multipart item together with the oracles for its fallible calls
(`fileHeader.Open`, `os.MkdirAll`, `os.Create`, `io.Copy`): `none` means
the call succeeds, `some msg` that it fails with that error text. -/
structure UploadItem where
  filename : String
  size : Int
  openErr : Option String
  mkdirErr : Option String
  createErr : Option String
  copyErr : Option String
  deriving DecidableEq, Repr

/-- One iteration of the upload loop in `handleUpload`: the first component
is `none` if the file was saved and `some msg` if this file failed with
that error; the second lists the filesystem mutations attempted, in order.
Mirrors the source order: size check, open, `FromSlash` + `Clean`, the
`strings.Contains(relativePath, "..")` rejection, `MkdirAll` on the parent,
`Create`, `Copy`. -/
def processItem (maxUploadSize : Int) (targetDir : String)
    (it : UploadItem) : Option String × List FsAction :=
  if maxUploadSize < it.size then (some ("file " ++ it.filename ++ " too large"), [])
  else
    match it.openErr with
    | some e => (some e, [])
    | none =>
      let relativePath := goClean (fromSlash it.filename)
      if strContains relativePath ".." then (some ("invalid path: " ++ relativePath), [])
      else
        let destPath := filepathJoin targetDir relativePath
        let destDir := goDir destPath
        match it.mkdirErr with
        | some e => (some e, [.mkdirAll destDir])
        | none =>
          match it.createErr with
          | some e => (some e, [.mkdirAll destDir, .create destPath])
          | none =>
            match it.copyErr with
            | some e => (some e, [.mkdirAll destDir, .create destPath, .write destPath])
            | none => (none, [.mkdirAll destDir, .create destPath, .write destPath])

/-- The accumulating loop of `handleUpload` over all multipart items:
returns `(uploadedCount, lastError)`. -/
def processFiles (maxUploadSize : Int) (targetDir : String) :
    List UploadItem → Nat → Option String → Nat × Option String
  | [], count, lastErr => (count, lastErr)
  | it :: rest, count, lastErr =>
    match (processItem maxUploadSize targetDir it).1 with
    | some e => processFiles maxUploadSize targetDir rest count (some e)
    | none => processFiles maxUploadSize targetDir rest (count + 1) lastErr

/-- `handleUpload`'s response: 400 on an empty file set; 500 with the last
error if no file was saved and an error occurred; otherwise a 303 redirect
back to the request path. -/
def handleUpload (maxUploadSize : Int) (targetDir : String)
    (files : List UploadItem) (urlPath : String) : Response :=
  if files = [] then ⟨400, false, .text "No files uploaded"⟩
  else
    match processFiles maxUploadSize targetDir files 0 none with
    | (0, some e) => ⟨500, false, .text ("Upload failed: " ++ e)⟩
    | _ => ⟨303, false, .redirect urlPath⟩

/-! ## Startup configuration (`main`) -/

/-- The `-permlevel` switch in `main`: the static `(allowUpload,
allowModify)` pair, or `none` for the `log.Fatalf` on an invalid level. -/
def setupPolicy (permLevel : String) : Option (Bool × Bool) :=
  if permLevel = "readonly" then some (false, false)
  else if permLevel = "readwrite" then some (true, false)
  else if permLevel = "all" then some (true, true)
  else none

/-- The guard in `main` deciding both whether `loadUsers` runs and whether
`requireAuth` is set: `*loginFile != "" && *permLevel == "readonly"`. -/
def setupAuth (loginFile permLevel : String) : Bool :=
  loginFile != "" && permLevel = "readonly"

/-- Go `strings.HasSuffix(s, suffix)` (used only to state facts about file
extensions). -/
def strEnds (s suffix : String) : Bool := suffix.data.reverse.isPrefixOf s.data.reverse

/-! ## Helper lemmas -/

/-- If `b ++ [c]` is a prefix of `f ++ [c]`, then `f` equals `b` or has
`b ++ [c]` as a proper prefix: the separator appended on both sides rules
out partial-segment collisions. -/
theorem append_singleton_prefix {α : Type} {b f : List α} {c : α}
    (h : (b ++ [c]) <+: (f ++ [c])) : f = b ∨ (b ++ [c]) <+: f := by
  obtain ⟨t, ht⟩ := h
  rcases List.eq_nil_or_concat t with rfl | ⟨t', x, rfl⟩
  · rw [List.append_nil] at ht
    exact Or.inl (List.append_cancel_right ht).symm
  · rw [List.concat_eq_append, ← List.append_assoc] at ht
    obtain ⟨h1, _⟩ := List.append_inj' ht rfl
    exact Or.inr ⟨t', h1⟩

/-- A string whose last character is not `/` is unchanged by
`trimRightSep`. -/
theorem trimRightSep_eq_self {b : String} (hb : b.data.getLast? ≠ some '/') :
    trimRightSep b = b := by
  unfold trimRightSep
  apply String.ext
  show ((b.data.reverse.dropWhile (· = '/')).reverse) = b.data
  rw [← List.head?_reverse] at hb
  cases hrev : b.data.reverse with
  | nil => simp_all
  | cons c t =>
    rw [hrev] at hb
    simp only [List.head?_cons, ne_eq, Option.some.injEq] at hb
    rw [List.dropWhile_cons]
    simp only [decide_eq_true_eq, hb, if_false]
    rw [← hrev, List.reverse_reverse]

/-- What a successful `isUnderDir` check guarantees, for a base directory
with no trailing separator: the full path is the base itself or strictly
below it. -/
theorem isUnderDir_eq_or_under {f b : String} (hb : b.data.getLast? ≠ some '/')
    (h : isUnderDir f b = true) : f = b ∨ strStarts f (b ++ "/") = true := by
  unfold isUnderDir strStarts at h
  rw [trimRightSep_eq_self hb] at h
  rw [List.isPrefixOf_iff_prefix] at h
  rw [String.data_append, String.data_append] at h
  have h' : (b.data ++ ['/']) <+: (f.data ++ ['/']) := h
  rcases append_singleton_prefix h' with heq | hpre
  · exact Or.inl (String.ext heq)
  · refine Or.inr ?_
    unfold strStarts
    rw [List.isPrefixOf_iff_prefix, String.data_append]
    exact hpre

/-! ## Claim theorems -/

/-- C1. Path containment: for every served root with no trailing separator
and every request URL path, the resolution step (lexical clean, join onto
the root, separator-padded prefix comparison) either yields the root
itself or a strict descendant (a path with `root ++ "/"` as a proper
prefix) — never an ancestor or sibling; a root `/data` does not accept the
sibling `/database` as a descendant; and when the containment check fails,
`dirHandler` answers 403 Forbidden whatever the `os.Stat` oracle says,
i.e. before any filesystem I/O. -/
theorem claim_C1_path_containment :
    (∀ b p f : String, b.data.getLast? ≠ some '/' → resolvePath b p = .ok f →
      f = b ∨ strStarts f (b ++ "/") = true) ∧
    isUnderDir "/database" "/data" = false ∧
    (∀ (rA aU aM : Bool) (users : String → Option User) (b : String)
      (r : Request) (stat : Option Bool), resolvePath b r.path = .error () →
      dirHandlerStep rA aU aM users b r stat = .done ⟨403, false, .text "Forbidden"⟩) := by
  refine ⟨?_, by decide, ?_⟩
  · intro b p f hb hok
    simp only [resolvePath] at hok
    split at hok
    · rename_i hunder
      cases hok
      exact isUnderDir_eq_or_under hb hunder
    · cases hok
  · intro rA aU aM users b r stat herr
    unfold dirHandlerStep
    rw [herr]

/-- Witness for C1: the regression case — root `/srv/data`, request path
`/../database/secrets.txt` — resolves inside the root, and a request whose
resolution fails containment is answered 403 regardless of the stat
oracle. -/
theorem claim_C1_path_containment_witness :
    ("/srv/data/database/secrets.txt" = "/srv/data" ∨
      strStarts "/srv/data/database/secrets.txt" ("/srv/data" ++ "/") = true) ∧
    dirHandlerStep false false false (fun _ => none) "/data"
      ⟨"GET", "..", "", "", "", "", "", "", "", "", "", none⟩ (some true) =
      .done ⟨403, false, .text "Forbidden"⟩ :=
  ⟨claim_C1_path_containment.1 "/srv/data" "/../database/secrets.txt"
      "/srv/data/database/secrets.txt" (by decide) rfl,
    claim_C1_path_containment.2.2 false false false (fun _ => none) "/data"
      ⟨"GET", "..", "", "", "", "", "", "", "", "", "", none⟩ (some true) rfl⟩

/-- C2. Capability narrowing for an authenticated identity: `readonly`
forces `(canUpload, canModify) = (false, false)` regardless of the static
policy; `all` reproduces the static policy exactly; `readwrite` forces
`canModify = false` regardless of the static policy. -/
theorem claim_C2_capability_narrowing :
    ∀ (aU aM : Bool) (u : User),
      (u.permission = "readonly" → capabilities aU aM true (some u) = (false, false)) ∧
      (u.permission = "all" → capabilities aU aM true (some u) = (aU, aM)) ∧
      (u.permission = "readwrite" → (capabilities aU aM true (some u)).2 = false) := by
  intro aU aM u
  refine ⟨fun h => ?_, fun h => ?_, fun h => ?_⟩ <;> simp [capabilities, h]

/-- Witness for C2 at a concrete static policy and identities of all three
permission levels. -/
theorem claim_C2_capability_narrowing_witness :
    capabilities true true true (some ⟨"r", "p", "readonly"⟩) = (false, false) ∧
    capabilities true true true (some ⟨"a", "p", "all"⟩) = (true, true) ∧
    (capabilities true true true (some ⟨"w", "p", "readwrite"⟩)).2 = false :=
  ⟨(claim_C2_capability_narrowing true true ⟨"r", "p", "readonly"⟩).1 rfl,
    (claim_C2_capability_narrowing true true ⟨"a", "p", "all"⟩).2.1 rfl,
    (claim_C2_capability_narrowing true true ⟨"w", "p", "readwrite"⟩).2.2 rfl⟩

/-- C3, counterexample. With a credentials file containing
`alice:secret:readonly` (so auth is enabled and the static policy is
readonly), a delete request authenticated as `alice:secret` is answered
with HTTP 200 and the JSON failure body — not with HTTP 403 as the claim
states. -/
theorem claim_C3_counterexample :
    pipeline true false false (loadUsers "alice:secret:readonly") "/srv"
      ⟨"POST", "/", "", "sub.txt", "", "", "", "", "", "", "",
        some ("alice", "secret")⟩ none =
      .done ⟨200, false, .jsonFail "Forbidden: Delete not allowed"⟩ ∧
    (200 : Nat) ≠ 403 := by
  exact ⟨by decide, by decide⟩

/-- C3, amended. In the same scenario: no credentials gives 401 with a
challenge; `alice:secret` (authenticated, insufficient capability) gives
HTTP 200 with the JSON body `success:false` (the delete route reports the
capability failure in the body, not the status line); `alice:wrong` gives
401 with a challenge. -/
theorem claim_C3_auth_gating_amended :
    pipeline true false false (loadUsers "alice:secret:readonly") "/srv"
      ⟨"POST", "/", "", "sub.txt", "", "", "", "", "", "", "", none⟩ none =
      .done ⟨401, true, .text "Unauthorized"⟩ ∧
    pipeline true false false (loadUsers "alice:secret:readonly") "/srv"
      ⟨"POST", "/", "", "sub.txt", "", "", "", "", "", "", "",
        some ("alice", "secret")⟩ none =
      .done ⟨200, false, .jsonFail "Forbidden: Delete not allowed"⟩ ∧
    pipeline true false false (loadUsers "alice:secret:readonly") "/srv"
      ⟨"POST", "/", "", "sub.txt", "", "", "", "", "", "", "",
        some ("alice", "wrong")⟩ none =
      .done ⟨401, true, .text "Unauthorized"⟩ := by
  exact ⟨by decide, by decide, by decide⟩

/-- C4. Upload path safety: any uploaded item whose client-supplied
relative path still contains `..` after lexical cleaning is rejected with
no filesystem action at all; the item `sub/dir/file.txt` gets its parent
`sub/dir` created under the target directory and the file placed inside
it; the item `../../etc/passwd` is rejected with nothing written. -/
theorem claim_C4_upload_path_safety :
    (∀ (maxSize : Int) (targetDir : String) (it : UploadItem),
      strContains (goClean (fromSlash it.filename)) ".." = true →
      (processItem maxSize targetDir it).1 ≠ none ∧
      (processItem maxSize targetDir it).2 = []) ∧
    processItem 100 "/srv/root" ⟨"sub/dir/file.txt", 10, none, none, none, none⟩ =
      (none, [.mkdirAll "/srv/root/sub/dir", .create "/srv/root/sub/dir/file.txt",
        .write "/srv/root/sub/dir/file.txt"]) ∧
    processItem 100 "/srv/root" ⟨"../../etc/passwd", 10, none, none, none, none⟩ =
      (some "invalid path: ../../etc/passwd", []) := by
  refine ⟨?_, by decide, by decide⟩
  intro maxSize targetDir it h
  unfold processItem
  split
  · exact ⟨Option.some_ne_none _, rfl⟩
  · split
    · exact ⟨Option.some_ne_none _, rfl⟩
    · rw [if_pos h]
      exact ⟨Option.some_ne_none _, rfl⟩

/-- Witness for C4 on an item whose cleaned path keeps a `..` segment. -/
theorem claim_C4_upload_path_safety_witness :
    (processItem 100 "/t" ⟨"../hack.txt", 1, none, none, none, none⟩).1 ≠ none ∧
    (processItem 100 "/t" ⟨"../hack.txt", 1, none, none, none, none⟩).2 = [] :=
  claim_C4_upload_path_safety.1 100 "/t" ⟨"../hack.txt", 1, none, none, none, none⟩
    (by decide)

/-- C5. JSON error asymmetry: every response of `handleDelete`,
`handleRename`, `handleMkdir` and `handleEdit` — success or any of the
failure modes (invalid path, invalid name, target exists, I/O error) —
carries HTTP status 200 with a `success` JSON body, and every JSON-failure
response decided inside `dirHandler` itself (the insufficient-capability
branches of the four mutating routes) also carries status 200: failure is
signalled in the body, never in the status line. -/
theorem claim_C5_json_error_asymmetry :
    (∀ (b d : String) (e : Option String), (handleDelete b d e).status = 200 ∧
      ((handleDelete b d e).body = .jsonOk ∨ ∃ m, (handleDelete b d e).body = .jsonFail m)) ∧
    (∀ (b o n : String) (e : Option String), (handleRename b o n e).status = 200 ∧
      ((handleRename b o n e).body = .jsonOk ∨ ∃ m, (handleRename b o n e).body = .jsonFail m)) ∧
    (∀ (p d : String) (ex : Bool) (e : Option String), (handleMkdir p d ex e).status = 200 ∧
      ((handleMkdir p d ex e).body = .jsonOk ∨ ∃ m, (handleMkdir p d ex e).body = .jsonFail m)) ∧
    (∀ (f b : String) (rb : Bool) (e : Option String), (handleEdit f b rb e).status = 200 ∧
      ((handleEdit f b rb e).body = .jsonOk ∨ ∃ m, (handleEdit f b rb e).body = .jsonFail m)) ∧
    (∀ (rA aU aM : Bool) (users : String → Option User) (b : String) (r : Request)
      (stat : Option Bool) (resp : Response) (m : String),
      dirHandlerStep rA aU aM users b r stat = .done resp → resp.body = .jsonFail m →
      resp.status = 200) := by
  refine ⟨?_, ?_, ?_, ?_, ?_⟩
  · intro b d e
    simp only [handleDelete]
    cases e <;> split <;>
      first
        | exact ⟨rfl, Or.inl rfl⟩
        | exact ⟨rfl, Or.inr ⟨_, rfl⟩⟩
  · intro b o n e
    simp only [handleRename]
    cases e <;> split <;>
      first
        | exact ⟨rfl, Or.inl rfl⟩
        | exact ⟨rfl, Or.inr ⟨_, rfl⟩⟩
  · intro p d ex e
    simp only [handleMkdir]
    cases e <;> cases ex <;> repeat' split
    all_goals
      first
        | exact ⟨rfl, Or.inl rfl⟩
        | exact ⟨rfl, Or.inr ⟨_, rfl⟩⟩
  · intro f b rb e
    simp only [handleEdit]
    cases e <;> cases rb <;> repeat' split
    all_goals
      first
        | exact ⟨rfl, Or.inl rfl⟩
        | exact ⟨rfl, Or.inr ⟨_, rfl⟩⟩
  · intro rA aU aM users b r stat resp m h hb
    simp only [dirHandlerStep] at h
    repeat' split at h
    all_goals first
      | (injection h with h2; subst h2; first | rfl | simp_all)
      | simp_all

/-- Witness for C5: a concrete invalid-path delete failure and the concrete
capability-denied delete branch, both status 200. -/
theorem claim_C5_json_error_asymmetry_witness :
    ((handleDelete "/srv" ".." none).status = 200 ∧
      ((handleDelete "/srv" ".." none).body = .jsonOk ∨
        ∃ m, (handleDelete "/srv" ".." none).body = .jsonFail m)) ∧
    (⟨200, false, Body.jsonFail "Forbidden: Delete not allowed"⟩ : Response).status = 200 :=
  ⟨claim_C5_json_error_asymmetry.1 "/srv" ".." none,
    claim_C5_json_error_asymmetry.2.2.2.2 true false false
      (loadUsers "alice:secret:readonly") "/srv"
      ⟨"POST", "/", "", "sub.txt", "", "", "", "", "", "", "",
        some ("alice", "secret")⟩ none
      ⟨200, false, Body.jsonFail "Forbidden: Delete not allowed"⟩
      "Forbidden: Delete not allowed" (by decide) rfl⟩

/-- C6, counterexample. A request for `notes.txt` — a file whose name does
not end in `.md` — with the `markdown` query marker set dispatches to the
markdown-render transform: the dispatcher checks only the query marker and
that the target is a file, never the extension. -/
theorem claim_C6_counterexample :
    dirHandlerStep false false false (fun _ => none) "/srv"
      ⟨"GET", "/notes.txt", "", "", "", "", "", "", "", "", "1", none⟩ (some false) =
      .op (.markdown "/srv/notes.txt") ∧
    strEnds "notes.txt" ".md" = false := by
  exact ⟨by decide, by decide⟩

/-- C6, amended. The markdown-render transform is invoked exactly under the
dispatcher's own conditions, with no restriction on the file extension:
whenever `dirHandler` hands off to markdown rendering, the `markdown`
query marker was non-empty and the resolved target stats as a file
(converse direction); and for EVERY request whose path resolves, for which
none of the earlier operation markers (upload/delete/rename/mkdir/edit
POSTs, zip, zipfiles POST) matches, whose target stats as a file, and
whose `markdown` marker is non-empty, the dispatcher hands that file to
the markdown render — whatever its name (forward direction). -/
theorem claim_C6_markdown_dispatch_amended :
    (∀ (rA aU aM : Bool) (users : String → Option User) (b : String)
      (r : Request) (stat : Option Bool) (p : String),
      dirHandlerStep rA aU aM users b r stat = .op (.markdown p) →
      r.qMarkdown ≠ "" ∧ stat = some false) ∧
    (∀ (rA aU aM : Bool) (users : String → Option User) (b : String)
      (r : Request) (f : String),
      resolvePath b r.path = .ok f →
      ¬(r.qUpload ≠ "" ∧ r.method = "POST") →
      ¬(r.qDelete ≠ "" ∧ r.method = "POST") →
      ¬(r.qRename ≠ "" ∧ r.method = "POST") →
      ¬(r.qMkdir ≠ "" ∧ r.method = "POST") →
      ¬(r.qEdit ≠ "" ∧ r.method = "POST") →
      r.qZip = "" →
      ¬(r.qZipfiles ≠ "" ∧ r.method = "POST") →
      r.qMarkdown ≠ "" →
      dirHandlerStep rA aU aM users b r (some false) = .op (.markdown f)) := by
  constructor
  · intro rA aU aM users b r stat p h
    simp only [dirHandlerStep] at h
    repeat' split at h
    all_goals simp_all
  · intro rA aU aM users b r f hres h1 h2 h3 h4 h5 hz h6 hmd
    simp only [dirHandlerStep, hres]
    rw [if_neg (by simp only [Bool.and_eq_true, bne_iff_ne, decide_eq_true_eq]; exact h1)]
    rw [if_neg (by simp only [Bool.and_eq_true, bne_iff_ne, decide_eq_true_eq]; exact h2)]
    rw [if_neg (by simp only [Bool.and_eq_true, bne_iff_ne, decide_eq_true_eq]; exact h3)]
    rw [if_neg (by simp only [Bool.and_eq_true, bne_iff_ne, decide_eq_true_eq]; exact h4)]
    rw [if_neg (by simp only [Bool.and_eq_true, bne_iff_ne, decide_eq_true_eq]; exact h5)]
    rw [if_neg (by simp only [bne_iff_ne]; exact fun hc => hc hz)]
    rw [if_neg (by simp only [Bool.and_eq_true, bne_iff_ne, decide_eq_true_eq]; exact h6)]
    rw [if_pos (by simp only [Bool.not_false, Bool.true_and, bne_iff_ne]; exact hmd)]

/-- Witness for the amended C6 at the counterexample's request: the
converse direction instantiated there, and the forward direction deriving
the dispatch of the non-`.md` file `notes.txt` to the markdown render. -/
theorem claim_C6_markdown_dispatch_amended_witness :
    (("1" : String) ≠ "" ∧ (some false : Option Bool) = some false) ∧
    dirHandlerStep false false false (fun _ => none) "/srv"
      ⟨"GET", "/notes.txt", "", "", "", "", "", "", "", "", "1", none⟩ (some false) =
      .op (.markdown "/srv/notes.txt") :=
  ⟨claim_C6_markdown_dispatch_amended.1 false false false (fun _ => none) "/srv"
      ⟨"GET", "/notes.txt", "", "", "", "", "", "", "", "", "1", none⟩ (some false)
      "/srv/notes.txt" (by decide),
    claim_C6_markdown_dispatch_amended.2 false false false (fun _ => none) "/srv"
      ⟨"GET", "/notes.txt", "", "", "", "", "", "", "", "", "1", none⟩ "/srv/notes.txt"
      rfl (by decide) (by decide) (by decide) (by decide) (by decide) rfl (by decide)
      (by decide)⟩

/-- The final error of a run of the upload loop is the last error among the
items, seeded with the incoming accumulator. -/
theorem getLast?_cons_or {α : Type} (a : α) (l : List α) (e : Option α) :
    ((a :: l).getLast?).or e = (l.getLast?).or (some a) := by
  cases hl : l.getLast? with
  | none =>
    have h0 : l = [] := List.getLast?_eq_none_iff.mp hl
    subst h0; simp
  | some x =>
    have h1 : (a :: l).getLast? = some x := by
      rw [List.getLast?_cons, hl]; rfl
    rw [h1]; rfl

/-- Closed form of the upload loop: the saved count is the number of items
whose processing succeeds, and the last error is the last failing item's
error (falling back to the accumulator). -/
theorem processFiles_eq (m : Int) (t : String) (files : List UploadItem) :
    ∀ (c : Nat) (e : Option String),
    processFiles m t files c e =
      (c + files.countP (fun it => ((processItem m t it).1).isNone),
       ((files.filterMap (fun it => (processItem m t it).1)).getLast?).or e) := by
  induction files with
  | nil => intro c e; simp [processFiles]
  | cons it rest ih =>
    intro c e
    simp only [processFiles]
    cases hpi : (processItem m t it).1 with
    | some err =>
      simp only [List.countP_cons, List.filterMap_cons, hpi, Option.isNone_some,
        Bool.false_eq_true, if_false, Nat.add_zero, getLast?_cons_or]
      exact ih c (some err)
    | none =>
      simp only [List.countP_cons, List.filterMap_cons, hpi, Option.isNone_none, if_true]
      rw [ih]
      simp only [Prod.mk.injEq]
      exact ⟨by omega, trivial⟩

/-- C7. Upload partial-failure policy: for a non-empty multipart file set,
the overall response is the success redirect exactly when at least one
file was saved; when no file was saved, the response is the 500 error
surfacing the last individual file's error. -/
theorem claim_C7_upload_partial_failure :
    ∀ (m : Int) (t : String) (files : List UploadItem) (url : String), files ≠ [] →
      ((handleUpload m t files url = ⟨303, false, .redirect url⟩) ↔
        1 ≤ (processFiles m t files 0 none).1) ∧
      ((processFiles m t files 0 none).1 = 0 →
        ∃ e, (files.filterMap (fun it => (processItem m t it).1)).getLast? = some e ∧
          handleUpload m t files url = ⟨500, false, .text ("Upload failed: " ++ e)⟩) := by
  intro m t files url hne
  have hkey : (processFiles m t files 0 none).1 = 0 →
      ∃ e, (files.filterMap (fun it => (processItem m t it).1)).getLast? = some e := by
    intro h0
    rw [processFiles_eq] at h0
    simp only [Nat.zero_add] at h0
    cases files with
    | nil => exact absurd rfl hne
    | cons it rest =>
      rw [List.countP_cons] at h0
      by_cases hin : ((processItem m t it).1).isNone = true
      · rw [if_pos hin] at h0; omega
      · obtain ⟨err, herr⟩ : ∃ e, (processItem m t it).1 = some e := by
          cases hpi : (processItem m t it).1 with
          | none => rw [hpi] at hin; simp at hin
          | some x => exact ⟨x, rfl⟩
        rw [List.filterMap_cons, herr]
        exact ⟨_, List.getLast?_cons⟩
  have hredir : 1 ≤ (processFiles m t files 0 none).1 →
      handleUpload m t files url = ⟨303, false, .redirect url⟩ := by
    intro hge
    simp only [handleUpload]
    rw [if_neg hne]
    rcases hpp : processFiles m t files 0 none with ⟨cnt, le⟩
    rw [hpp] at hge
    cases cnt with
    | zero => simp at hge
    | succ k => cases le <;> rfl
  have h500 : ∀ e, (files.filterMap (fun it => (processItem m t it).1)).getLast? = some e →
      (processFiles m t files 0 none).1 = 0 →
      handleUpload m t files url = ⟨500, false, .text ("Upload failed: " ++ e)⟩ := by
    intro e hel h0
    rcases hpp : processFiles m t files 0 none with ⟨cnt, le⟩
    have hc : cnt = 0 := by rw [hpp] at h0; exact h0
    have hle : le = some e := by
      have heq := processFiles_eq m t files 0 none
      rw [hpp] at heq
      have h2 := congrArg Prod.snd heq
      simp only at h2
      rw [h2, hel]
      rfl
    subst hc; subst hle
    simp only [handleUpload]
    rw [if_neg hne, hpp]
  refine ⟨⟨?_, hredir⟩, ?_⟩
  · intro hred
    by_contra hlt
    have h0 : (processFiles m t files 0 none).1 = 0 := by omega
    obtain ⟨e, hel⟩ := hkey h0
    rw [h500 e hel h0] at hred
    simp at hred
  · intro h0
    obtain ⟨e, hel⟩ := hkey h0
    exact ⟨e, hel, h500 e hel h0⟩

/-- Witness for C7: a two-file set where one file fails and one is saved
redirects, and a one-file set whose only file fails yields the 500 error
with that file's error text. -/
theorem claim_C7_upload_partial_failure_witness :
    ((handleUpload 100 "/t"
        [⟨"../x", 1, none, none, none, none⟩, ⟨"y", 1, none, none, none, none⟩] "/" =
        ⟨303, false, .redirect "/"⟩) ↔
      1 ≤ (processFiles 100 "/t"
        [⟨"../x", 1, none, none, none, none⟩, ⟨"y", 1, none, none, none, none⟩] 0 none).1) ∧
    (∃ e, ([(⟨"../x", 1, none, none, none, none⟩ : UploadItem)].filterMap
        (fun it => (processItem 100 "/t" it).1)).getLast? = some e ∧
      handleUpload 100 "/t" [⟨"../x", 1, none, none, none, none⟩] "/" =
        ⟨500, false, .text ("Upload failed: " ++ e)⟩) :=
  ⟨(claim_C7_upload_partial_failure 100 "/t"
      [⟨"../x", 1, none, none, none, none⟩, ⟨"y", 1, none, none, none, none⟩] "/"
      (by decide)).1,
    (claim_C7_upload_partial_failure 100 "/t"
      [⟨"../x", 1, none, none, none, none⟩] "/" (by decide)).2 (by decide)⟩

/-- C8, counterexample. The line `bob:pw:banana`, whose permission field is
not one of `readonly`/`readwrite`/`all`, is not skipped: `loadUsers`
stores an entry for `bob` carrying the raw permission string. -/
theorem claim_C8_counterexample :
    loadUsers "bob:pw:banana" "bob" = some ⟨"bob", "pw", "banana"⟩ := by decide

/-- C8, amended. Per line of the credentials file: a line that is blank
after trimming, or starts with `#`, or whose colon-split field count is
not exactly 3, adds no entry; every other line adds exactly one entry with
the trimmed fields — with no validation of the permission field, so an
unrecognized permission level is stored as-is rather than skipped. -/
theorem claim_C8_load_users_amended :
    ∀ line : String,
      (trimSpace line = "" → parseLine line = none) ∧
      (strStarts (trimSpace line) "#" = true → parseLine line = none) ∧
      ((goSplit (trimSpace line) ':').length ≠ 3 → parseLine line = none) ∧
      (∀ a b c : String, trimSpace line ≠ "" → strStarts (trimSpace line) "#" = false →
        goSplit (trimSpace line) ':' = [a, b, c] →
        parseLine line = some ⟨trimSpace a, trimSpace b, trimSpace c⟩) := by
  intro line
  refine ⟨?_, ?_, ?_, ?_⟩
  · intro h; simp [parseLine, h]
  · intro h
    simp only [parseLine]
    by_cases h0 : trimSpace line = ""
    · rw [if_pos h0]
    · rw [if_neg h0, if_pos h]
  · intro h
    simp only [parseLine]
    by_cases h0 : trimSpace line = ""
    · rw [if_pos h0]
    · rw [if_neg h0]
      by_cases h1 : strStarts (trimSpace line) "#" = true
      · rw [if_pos h1]
      · rw [if_neg h1]
        rcases hsp : goSplit (trimSpace line) ':' with _ | ⟨a, _ | ⟨b, _ | ⟨c, _ | d⟩⟩⟩ <;>
          simp_all
  · intro a b c hne hhash hsp
    simp only [parseLine]
    rw [if_neg hne, if_neg (by simp [hhash]), hsp]

/-- Witness for the amended C8: a comment, a short line, and the line
`alice:secret:readonly`. -/
theorem claim_C8_load_users_amended_witness :
    parseLine "" = none ∧ parseLine "# users" = none ∧ parseLine "a:b" = none ∧
    parseLine "alice:secret:readonly" =
      some ⟨trimSpace "alice", trimSpace "secret", trimSpace "readonly"⟩ :=
  ⟨(claim_C8_load_users_amended "").1 (by decide),
    (claim_C8_load_users_amended "# users").2.1 (by decide),
    (claim_C8_load_users_amended "a:b").2.2.1 (by decide),
    (claim_C8_load_users_amended "alice:secret:readonly").2.2.2 "alice" "secret" "readonly"
      (by decide) (by decide) (by decide)⟩

/-- C9. Authentication is enabled only when a login file is configured and
the static permission level is `readonly`; with `-logins` plus
`-permlevel readwrite` or `all`, `requireAuth` stays false (the same guard
controls the `loadUsers` call, so the file is never loaded) and the auth
gate passes every request through with no credential check. Whenever
authentication is enabled the static flags are both false, so every
authenticated identity — any permission string — gets capabilities
`(false, false)`. -/
theorem claim_C9_auth_requires_readonly :
    ∀ (loginFile permLevel : String) (aU aM : Bool),
      setupPolicy permLevel = some (aU, aM) →
      ((setupAuth loginFile permLevel = true) ↔ (loginFile ≠ "" ∧ permLevel = "readonly")) ∧
      ((permLevel = "readwrite" ∨ permLevel = "all") →
        setupAuth loginFile permLevel = false ∧
        (∀ (users : String → Option User) (r : Request),
          authGate (setupAuth loginFile permLevel) users r = none ∧
          getUserFromRequest (setupAuth loginFile permLevel) users r = none)) ∧
      (setupAuth loginFile permLevel = true →
        aU = false ∧ aM = false ∧
        ∀ u : User, capabilities aU aM true (some u) = (false, false)) := by
  intro lf pl aU aM hpol
  refine ⟨?_, ?_, ?_⟩
  · simp [setupAuth]
  · intro hpl
    have hfalse : setupAuth lf pl = false := by
      rcases hpl with h | h <;> subst h <;> simp [setupAuth]
    refine ⟨hfalse, ?_⟩
    intro users r
    rw [hfalse]
    exact ⟨rfl, rfl⟩
  · intro htrue
    have hro : pl = "readonly" := by
      simp [setupAuth] at htrue; exact htrue.2
    subst hro
    have hv : setupPolicy "readonly" = some ((false : Bool), (false : Bool)) := by decide
    rw [hv] at hpol
    injection hpol with hp
    injection hp with ha hb
    subst ha; subst hb
    refine ⟨rfl, rfl, ?_⟩
    intro u
    simp only [capabilities]
    split_ifs <;> rfl

/-- Witness for C9 at `-logins logins.txt` with `-permlevel readonly` and
with `-permlevel readwrite`. -/
theorem claim_C9_auth_requires_readonly_witness :
    ((setupAuth "logins.txt" "readonly" = true) ↔
      (("logins.txt" : String) ≠ "" ∧ ("readonly" : String) = "readonly")) ∧
    setupAuth "logins.txt" "readwrite" = false ∧
    capabilities false false true (some ⟨"u", "p", "banana"⟩) = (false, false) :=
  ⟨(claim_C9_auth_requires_readonly "logins.txt" "readonly" false false rfl).1,
    ((claim_C9_auth_requires_readonly "logins.txt" "readwrite" true false rfl).2.1
      (Or.inl rfl)).1,
    ((claim_C9_auth_requires_readonly "logins.txt" "readonly" false false rfl).2.2
      rfl).2.2 ⟨"u", "p", "banana"⟩⟩

/-- C10. The rename destination joins the client-supplied new name onto the
source's parent directory, with no rejection of separators or `..`
segments in the new name: acceptance is exactly the conjunction of the two
`isUnderDir` checks; a rejected request performs no filesystem call and
answers the JSON invalid-path error for every rename oracle; and a new
name containing `../` moves the entry to a different directory that is
still inside the served root. -/
theorem claim_C10_rename_destination :
    (∀ b o n oldP newP : String, handleRenameStep b o n = .doRename oldP newP →
      oldP = filepathJoin b o ∧ newP = filepathJoin (goDir oldP) n ∧
      isUnderDir oldP b = true ∧ isUnderDir newP b = true) ∧
    (∀ b o n : String, isUnderDir (filepathJoin b o) b = true →
      isUnderDir (filepathJoin (goDir (filepathJoin b o)) n) b = true →
      handleRenameStep b o n =
        .doRename (filepathJoin b o) (filepathJoin (goDir (filepathJoin b o)) n)) ∧
    (∀ (b o n : String) (e : Option String), handleRenameStep b o n = .invalidPath →
      handleRename b o n e = ⟨200, false, .jsonFail "Invalid path"⟩) ∧
    (handleRenameStep "/r" "/a/f.txt" "../b/x.txt" = .doRename "/r/a/f.txt" "/r/b/x.txt" ∧
      goDir "/r/b/x.txt" ≠ goDir "/r/a/f.txt" ∧ isUnderDir "/r/b/x.txt" "/r" = true) := by
  refine ⟨?_, ?_, ?_, ⟨by decide, by decide, by decide⟩⟩
  · intro b o n oldP newP h
    simp only [handleRenameStep] at h
    split at h
    · cases h
    · rename_i hcond
      injection h with h1 h2
      subst h1; subst h2
      simp only [Bool.or_eq_true, Bool.not_eq_true', not_or, Bool.not_eq_false] at hcond
      exact ⟨rfl, rfl, hcond.1, hcond.2⟩
  · intro b o n h1 h2
    simp only [handleRenameStep]
    rw [if_neg (by simp [h1, h2])]
  · intro b o n e h
    simp only [handleRename]
    rw [h]

/-- Witness for C10: the accepted cross-directory rename and a rejected
escaping rename. -/
theorem claim_C10_rename_destination_witness :
    ("/r/a/f.txt" = filepathJoin "/r" "/a/f.txt" ∧
      "/r/b/x.txt" = filepathJoin (goDir "/r/a/f.txt") "../b/x.txt" ∧
      isUnderDir "/r/a/f.txt" "/r" = true ∧ isUnderDir "/r/b/x.txt" "/r" = true) ∧
    handleRename "/r" "/f" "../../x" none = ⟨200, false, .jsonFail "Invalid path"⟩ :=
  ⟨claim_C10_rename_destination.1 "/r" "/a/f.txt" "../b/x.txt" "/r/a/f.txt" "/r/b/x.txt"
      (by decide),
    claim_C10_rename_destination.2.2.1 "/r" "/f" "../../x" none (by decide)⟩

end GoServe
